import Mathlib

/-!
# Verification of the course-recommendation pipeline

A shallow embedding of the recommendation resolution pipeline of this
repository and proofs about it.

* `src/models/recommender.py`, method `RecommenderModel.recommend`:
  identifier resolution, candidate selection, scoring, normalization,
  ranking, response assembly.
* `src/app/routes.py`, handler `api_recommendations`: the TTL response
  cache with hit/miss counters and capacity-triggered eviction.

Python floats are modelled as exact rationals (`ℚ`), Python dicts as
association lists in insertion order, pandas data frames as lists of rows
with `Option` fields for possibly-missing (`NaN`) cells.  External
identifiers are modelled for string-keyed mappings (the
`isinstance(sample_key, str)` branch of the source), which is the case all
claims and scenarios exercise.
-/

namespace CourseRec

/-- Python `s.endswith(".0")` on the coerced user key (`recommender.py:192`):
true iff the last two characters of `s` are `.` then `0`. -/
def endsDotZero (s : String) : Bool := s.data.reverse.take 2 == ['0', '.']

/-- Lookup in a Python dict modelled as an association list (keys unique,
insertion order preserved): `d[k]` / `k in d`. -/
def lookupStr (l : List (String × Nat)) (k : String) : Option Nat :=
  (l.find? (fun p => p.1 == k)).map (fun p => p.2)

/-- The key actually used after the decimal-point-zero adjustment
(`recommender.py:185-195`, string-keyed mapping).  The coerced key is the
string itself; when it does not already end in `".0"` and the `".0"`-suffixed
form is a key of the mapping, the suffixed form replaces it — the code never
checks whether the unsuffixed key itself is present before this swap. -/
def resolveUidKey (userMap : List (String × Nat)) (user_id : String) : String :=
  let uid_key := user_id
  if endsDotZero uid_key then uid_key
  else
    let float_key := uid_key ++ ".0"
    if (lookupStr userMap float_key).isSome then float_key else uid_key

/-- Full identifier resolution: the adjusted key looked up in the user
mapping (`recommender.py:185-209`); `none` models the unknown-user branch. -/
def resolveUid (userMap : List (String × Nat)) (user_id : String) : Option Nat :=
  lookupStr userMap (resolveUidKey userMap user_id)

/-- One row of the `courses_df` metadata table (`recommender.py:279-299`).
`Option` fields model missing columns / `NaN` cells (`pd.notna`). -/
structure CourseRow where
  course_id : String
  title : Option String
  course_title : Option String
  category : Option String
  price : Option ℚ
  level : Option String
  language : Option String
deriving DecidableEq

/-- One recommendation entry (`info` dict, `recommender.py:272-299`). -/
structure RecInfo where
  course_id : String
  score : ℚ
  original_score : ℚ
  title : Option String
  category : Option String
  price : Option ℚ
  level : Option String
  language : Option String
deriving DecidableEq

/-- The payload returned by `recommend` (`recommender.py:200-206, 304-309`).
The success payload has no `error` key, modelled as `none`. -/
structure Payload where
  user_id : String
  count : Nat
  mine_only : Bool
  error : Option String
  recommendations : List RecInfo
deriving DecidableEq

/-- The loaded model state consumed by `recommend`: the user and item
identifier mappings (`dataset.mapping()[0]` and `[2]`), the optional
restricted index list (`mine_course_indices`), the optional review table
(`sampled_reviews`, rows already coerced to strings as the code does with
`astype(str)`), the batch prediction function (`model.predict`), and the
optional metadata table (`courses_df`). -/
structure Model where
  userMap : List (String × Nat)
  itemMap : List (String × Nat)
  mineIndices : Option (List Nat)
  reviews : Option (List (String × String))
  predict : Nat → List Nat → List ℚ
  coursesDf : Option (List CourseRow)

/-- The inverse item mapping `idx_to_item = {v: k for k, v in item_map.items()}`
(`recommender.py:182`): for duplicate values the later key wins, as in the
dict comprehension.  A missing index would raise `KeyError` in the source;
it is unreachable under the bijection invariant of the mapping and modelled by
the default `""`. -/
def idxToItem (itemMap : List (String × Nat)) (idx : Nat) : String :=
  ((itemMap.reverse.find? (fun p => p.2 == idx)).map (fun p => p.1)).getD ""

/-- The courses already rated by the resolved user key
(`recommender.py:212-220`): the `course_id` column of the review rows whose
`user_id` column equals `str(uid_key)`. -/
def ratedCourses (m : Model) (uid_key : String) : List String :=
  match m.reviews with
  | none => []
  | some rows => (rows.filter (fun r => r.1 == uid_key)).map (fun r => r.2)

/-- Modelled from the library contract: the Python built-in `hash(str)` is an
unspecified but fixed function within one process (`recommender.py:238`);
any fixed function is a faithful model for within-process determinism. -/
def pyHash (s : String) : Nat :=
  s.data.foldl (fun h c => (h * 31 + c.toNat) % 2305843009213693951) 7

/-- A step of the pseudo-random stream standing in for the numpy generator. -/
def lcg (s : Nat) : Nat := (1103515245 * s + 12345) % 2147483648

/-- Modelled from the library contract: `np.random.choice(pool, k,
replace=False)` after `np.random.seed(s)` (`recommender.py:238-239`) is a
deterministic function of `(s, pool, k)` drawing `k` distinct positions
from the pool.  Modelled as a seeded without-replacement draw. -/
def drawK : Nat → List String → Nat → List String
  | _, _, 0 => []
  | s, pool, k + 1 =>
    if h : pool.length = 0 then []
    else
      let i : Fin pool.length := ⟨s % pool.length, Nat.mod_lt _ (Nat.pos_of_ne_zero h)⟩
      pool.get i :: drawK (lcg s) (pool.eraseIdx i.val) k

/-- The seed the code derives for a user: `42 + int(hash(str(user_id)) % 100000)`
(`recommender.py:238`). -/
def seedOf (user_id : String) : Nat := 42 + pyHash user_id % 100000

/-- The full-catalog subsampling step (`recommender.py:236-239`).  `rng` is
the ambient global numpy RNG state at call time; it is irrelevant to the
result because the code reseeds the generator from the user id before
drawing, and it is unused when no sampling happens. -/
def sampleCandidates (rng : Nat) (user_id : String) (pool : List String) : List String :=
  if pool.length > 1000 then drawK (seedOf user_id) pool 1000 else pool

/-- The full-catalog candidate list at the external-id level
(`recommender.py:232-239`): all item keys, minus the rated ones, falling
back to all keys when the exclusion empties the list (`or all_items`),
then subsampled when longer than 1000. -/
def fullCandidateIds (m : Model) (rng : Nat) (user_id : String) : List String :=
  let uid_key := resolveUidKey m.userMap user_id
  let rated := ratedCourses m uid_key
  let all_items := m.itemMap.map (fun p => p.1)
  let c0 := all_items.filter (fun i => !(rated.contains i))
  let c1 := if c0.isEmpty then all_items else c0
  sampleCandidates rng user_id c1

/-- Candidate selection (`recommender.py:222-241`).  With `mine_only` and a
present restricted list: the restricted indices whose external id is
unrated, falling back to the whole restricted list when that filter empties
it.  Otherwise: the full-catalog candidates mapped back to indices through
`item_map`. -/
def candidateIndices (m : Model) (rng : Nat) (user_id : String) (mine_only : Bool) : List Nat :=
  let uid_key := resolveUidKey m.userMap user_id
  let rated := ratedCourses m uid_key
  match mine_only, m.mineIndices with
  | true, some mi =>
    let c := mi.filter (fun idx => !(rated.contains (idxToItem m.itemMap idx)))
    if c.isEmpty then mi else c
  | _, _ =>
    (fullCandidateIds m rng user_id).map (fun c => (lookupStr m.itemMap c).getD 0)

/-- `scores.min()` over the batch; only used on non-empty score lists. -/
def minScore : List ℚ → ℚ
  | [] => 0
  | x :: xs => xs.foldl min x

/-- `scores.max()`; with `minScore` this gives `np.ptp` (max minus min). -/
def maxScore : List ℚ → ℚ
  | [] => 0
  | x :: xs => xs.foldl max x

/-- `np.ptp(scores)`: the peak-to-peak range of the batch. -/
def scoreRange (l : List ℚ) : ℚ := maxScore l - minScore l

/-- The `1e-9` guard constant of the normalization. -/
def epsQ : ℚ := 1 / 1000000000

/-- Score normalization onto the 1–5 display scale (`recommender.py:247-252`):
`1 + 4 * (scores - min) / (ptp + 1e-9)` applied over the batch, empty when
the batch is empty. -/
def normalizeScores (scores : List ℚ) : List ℚ :=
  if scores.length > 0 then
    scores.map (fun s => 1 + 4 * (s - minScore scores) / (scoreRange scores + epsQ))
  else []

/-- The documented contract of `np.argsort(-scores)` (`recommender.py:256`):
a permutation of the score positions along which scores are non-increasing.
The default sort kind (quicksort/introsort) specifies nothing further; in
particular it does not promise a stable order among equal scores, so the
embedding treats every contract-compliant permutation as a possible
outcome. -/
def IsDescSortPerm (scores : List ℚ) (perm : List Nat) : Prop :=
  perm.Perm (List.range scores.length) ∧
  perm.Pairwise (fun i j => scores.getD j 0 ≤ scores.getD i 0)

/-- The ranking stage (`recommender.py:256-258`): the first
`min(n, len(scores))` positions of the sort permutation, each mapped to its
candidate and raw score. -/
def rankSelect (scores : List ℚ) (cands : List Nat) (n : Nat) (perm : List Nat) :
    List (Nat × ℚ) :=
  (perm.take (min n scores.length)).map (fun i => (cands.getD i 0, scores.getD i 0))

/-- `zip(selected_indices, top_raw, top_norm)` (`recommender.py:267`). -/
def zip3 {α β γ : Type} (a : List α) (b : List β) (c : List γ) : List (α × β × γ) :=
  (a.zip (b.zip c)).map (fun x => (x.1, x.2.1, x.2.2))

/-- Response assembly for one ranked candidate (`recommender.py:267-301`):
the course id recovered through the inverse mapping, the normalized score
as `score`, the raw score as `original_score`, and metadata copied from the
first matching `courses_df` row when one exists — `title` falling back to
`course_title` and then to the synthesized `"Course " ++ id`, the remaining
fields only when present. -/
def buildRec (m : Model) (x : Nat × ℚ × ℚ) : RecInfo :=
  let cid := idxToItem m.itemMap x.1
  let base : RecInfo :=
    { course_id := cid, score := x.2.2, original_score := x.2.1,
      title := none, category := none, price := none, level := none, language := none }
  match m.coursesDf with
  | none => base
  | some rows =>
    match rows.find? (fun r => r.course_id == cid) with
    | none => base
    | some row =>
      let t := match row.title with
        | some t => some t
        | none => match row.course_title with
          | some t => some t
          | none => some ("Course " ++ cid)
      { base with title := t, category := row.category, price := row.price,
                  level := row.level, language := row.language }

/-- The unknown-user message `f"User {user_id} không có trong model"`
(`recommender.py:204`). -/
def unknownUserMsg (user_id : String) : String :=
  "User " ++ user_id ++ " không có trong model"

/-- The whole `recommend` method (`recommender.py:162-311`) for a
string-keyed user mapping.  `argsort` abstracts `np.argsort` composed with
negation (any contract-compliant permutation; see `IsDescSortPerm`), `rng`
is the ambient numpy RNG state.  The second component counts the calls made
to `model.predict`: the unknown-user branch returns before the call, every
other path reaches line 244 exactly once — there is no guard on an empty
candidate list. -/
def recommend (m : Model) (argsort : List ℚ → List Nat) (rng : Nat)
    (user_id : String) (n : Nat) (mine_only : Bool) : Payload × Nat :=
  let uid_key := resolveUidKey m.userMap user_id
  match lookupStr m.userMap uid_key with
  | none =>
    ({ user_id := user_id, count := 0, mine_only := mine_only,
       error := some (unknownUserMsg user_id), recommendations := [] }, 0)
  | some uidx =>
    let cands := candidateIndices m rng user_id mine_only
    let scores := m.predict uidx cands
    let norm_scores := normalizeScores scores
    let top_indices := (argsort scores).take (min n scores.length)
    let selected := top_indices.map (fun i => cands.getD i 0)
    let top_raw := top_indices.map (fun i => scores.getD i 0)
    let top_norm := top_indices.map (fun i => norm_scores.getD i 0)
    let recs := (zip3 selected top_raw top_norm).map (buildRec m)
    ({ user_id := user_id, count := recs.length, mine_only := mine_only,
       error := none, recommendations := recs }, 1)

/-! ## The response cache (`src/app/routes.py`) -/

/-- One cache slot: `{"data": ..., "time": now}` (`routes.py:106-109`). -/
structure CacheEntry where
  data : Payload
  time : ℚ
deriving DecidableEq

/-- The hit/miss counters (`routes.py:12`). -/
structure CacheStats where
  hits : Nat
  misses : Nat
deriving DecidableEq

/-- The cache key `f"{user_id}_{count}_{mine_only}"` (`routes.py:90`);
Python formats the flag as `True`/`False`. -/
def cacheKey (user_id : String) (count : Nat) (mine_only : Bool) : String :=
  user_id ++ "_" ++ toString count ++ "_" ++ (if mine_only then "True" else "False")

/-- `cache_key in recommendation_cache` plus the read of the stored slot. -/
def lookupCache (cache : List (String × CacheEntry)) (key : String) : Option CacheEntry :=
  (cache.find? (fun p => p.1 == key)).map (fun p => p.2)

/-- Python dict assignment `cache[key] = e` (`routes.py:106`): overwrite in
place when the key exists (keeping its position), append otherwise. -/
def dictInsert (cache : List (String × CacheEntry)) (key : String) (e : CacheEntry) :
    List (String × CacheEntry) :=
  if cache.any (fun p => p.1 == key) then
    cache.map (fun p => if p.1 == key then (key, e) else p)
  else cache ++ [(key, e)]

/-- Stable insertion into a time-sorted list; with `sortByTime` this models
the stable Python sort over insertion time
(`routes.py:113`). -/
def insertByTime (x : String × CacheEntry) :
    List (String × CacheEntry) → List (String × CacheEntry)
  | [] => [x]
  | y :: ys => if x.2.time ≤ y.2.time then x :: y :: ys else y :: insertByTime x ys

/-- `sorted(recommendation_cache.items(), key=lambda x: x[1]["time"])`:
all entries in ascending insertion-time order (stable). -/
def sortByTime : List (String × CacheEntry) → List (String × CacheEntry)
  | [] => []
  | x :: xs => insertByTime x (sortByTime xs)

/-- The eviction step (`routes.py:112-115`): when the size exceeds
`MAX_CACHE_SIZE`, clear the dict and refill it with the first
`MAX_CACHE_SIZE // 2` entries of the ascending-by-time sort — that leading part
is the OLDEST entries, so the oldest half is retained and the newest
discarded. -/
def evictIfNeeded (cache : List (String × CacheEntry)) (maxSize : Nat) :
    List (String × CacheEntry) :=
  if cache.length > maxSize then (sortByTime cache).take (maxSize / 2) else cache

/-- The miss path (`routes.py:99-115`): count the miss, then — when the
pipeline call succeeds (`compute = some p`) — return its payload after
writing it to the cache and compacting; when it raises (`compute = none`,
the 500 branch) return nothing and leave the cache untouched. -/
def handleMiss (maxSize : Nat) (cache : List (String × CacheEntry)) (stats : CacheStats)
    (key : String) (now : ℚ) (compute : Option Payload) :
    Option Payload × List (String × CacheEntry) × CacheStats :=
  let stats2 : CacheStats := { hits := stats.hits, misses := stats.misses + 1 }
  match compute with
  | some p => (some p, evictIfNeeded (dictInsert cache key { data := p, time := now }) maxSize, stats2)
  | none => (none, cache, stats2)

/-- The cache portion of `api_recommendations` (`routes.py:93-117`): a hit
requires a stored entry with `now - time < CACHE_TTL` and returns the
stored payload after counting the hit; everything else is the miss path.
`compute` stands for the `recommender.recommend(...)` call, `none` meaning
it raised. -/
def handleCached (ttl : ℚ) (maxSize : Nat) (cache : List (String × CacheEntry))
    (stats : CacheStats) (key : String) (now : ℚ) (compute : Option Payload) :
    Option Payload × List (String × CacheEntry) × CacheStats :=
  match lookupCache cache key with
  | some e =>
    if now - e.time < ttl then
      (some e.data, cache, { hits := stats.hits + 1, misses := stats.misses })
    else handleMiss maxSize cache stats key now compute
  | none => handleMiss maxSize cache stats key now compute

/-! ## Helper lemmas -/

theorem foldl_min_le_init (xs : List ℚ) (a : ℚ) : xs.foldl min a ≤ a := by
  induction xs generalizing a with
  | nil => simp
  | cons x xs ih => exact le_trans (ih (min a x)) (min_le_left a x)

theorem foldl_min_le_mem (xs : List ℚ) (a y : ℚ) (hy : y ∈ xs) : xs.foldl min a ≤ y := by
  induction xs generalizing a with
  | nil => cases hy
  | cons x xs ih =>
    rcases List.mem_cons.mp hy with h | h
    · subst h
      exact le_trans (foldl_min_le_init xs (min a y)) (min_le_right a y)
    · exact ih (min a x) h

theorem init_le_foldl_max (xs : List ℚ) (a : ℚ) : a ≤ xs.foldl max a := by
  induction xs generalizing a with
  | nil => simp
  | cons x xs ih => exact le_trans (le_max_left a x) (ih (max a x))

theorem mem_le_foldl_max (xs : List ℚ) (a y : ℚ) (hy : y ∈ xs) : y ≤ xs.foldl max a := by
  induction xs generalizing a with
  | nil => cases hy
  | cons x xs ih =>
    rcases List.mem_cons.mp hy with h | h
    · subst h
      exact le_trans (le_max_right a y) (init_le_foldl_max xs (max a y))
    · exact ih (max a x) h

theorem minScore_le_mem (l : List ℚ) (y : ℚ) (hy : y ∈ l) : minScore l ≤ y := by
  cases l with
  | nil => cases hy
  | cons x xs =>
    rcases List.mem_cons.mp hy with h | h
    · subst h; exact foldl_min_le_init xs y
    · exact foldl_min_le_mem xs x y h

theorem mem_le_maxScore (l : List ℚ) (y : ℚ) (hy : y ∈ l) : y ≤ maxScore l := by
  cases l with
  | nil => cases hy
  | cons x xs =>
    rcases List.mem_cons.mp hy with h | h
    · subst h; exact init_le_foldl_max xs y
    · exact mem_le_foldl_max xs x y h

theorem scoreRange_nonneg (l : List ℚ) (hl : l ≠ []) : 0 ≤ scoreRange l := by
  cases l with
  | nil => exact absurd rfl hl
  | cons x xs =>
    have h1 := minScore_le_mem (x :: xs) x (List.mem_cons_self x xs)
    have h2 := mem_le_maxScore (x :: xs) x (List.mem_cons_self x xs)
    have : minScore (x :: xs) ≤ maxScore (x :: xs) := le_trans h1 h2
    simpa [scoreRange] using this

theorem epsQ_pos : (0 : ℚ) < epsQ := by norm_num [epsQ]

theorem drawK_length (k : Nat) : ∀ (s : Nat) (pool : List String),
    k ≤ pool.length → (drawK s pool k).length = k := by
  induction k with
  | zero => intro s pool _; simp [drawK]
  | succ k ih =>
    intro s pool hk
    have hpos : pool.length ≠ 0 := by omega
    have hi : s % pool.length < pool.length := Nat.mod_lt _ (Nat.pos_of_ne_zero hpos)
    have herase : (pool.eraseIdx (s % pool.length)).length = pool.length - 1 := by
      simp [List.length_eraseIdx, hi]
    simp only [drawK, hpos, dite_false, List.length_cons]
    rw [ih (lcg s) (pool.eraseIdx (s % pool.length)) (by omega)]

theorem drawK_subset (k : Nat) : ∀ (s : Nat) (pool : List String) (x : String),
    x ∈ drawK s pool k → x ∈ pool := by
  induction k with
  | zero => intro s pool x hx; simp [drawK] at hx
  | succ k ih =>
    intro s pool x hx
    by_cases hpos : pool.length = 0
    · simp [drawK, hpos] at hx
    · simp only [drawK, hpos, dite_false, List.mem_cons] at hx
      rcases hx with h | h
      · subst h; exact pool.get_mem _ _
      · exact List.mem_of_mem_eraseIdx (ih (lcg s) _ x h)

theorem sampleCandidates_subset (rng : Nat) (uid : String) (pool : List String)
    (x : String) (hx : x ∈ sampleCandidates rng uid pool) : x ∈ pool := by
  by_cases h : pool.length > 1000
  · rw [sampleCandidates, if_pos h] at hx
    exact drawK_subset 1000 (seedOf uid) pool x hx
  · rwa [sampleCandidates, if_neg h] at hx

/-! ## Claim theorems -/

/-- A fixed payload used in concrete cache scenarios. -/
def pDummy : Payload :=
  { user_id := "u", count := 0, mine_only := true, error := none, recommendations := [] }

/-- Claim C1: the claim states that an insert pushing the cache above
`MAX_CACHE_SIZE` leaves exactly `MAX_CACHE_SIZE / 2` entries whose
`insertedAt` is at least that of every discarded entry (newest half kept).
The code does the opposite: `sorted(...)[:MAX_CACHE_SIZE // 2]` takes the
ascending-by-time PREFIX, retaining the oldest half.  With
`MAX_CACHE_SIZE = 2`, a cache holding entries inserted at times 1 and 2,
and a miss for key `"c"` at time 3, the resulting cache is exactly the
single oldest entry (time 1); the entry just written for `"c"` (time 3,
the newest) is discarded by its own eviction, so a lookup for `"c"`
immediately afterwards misses. -/
theorem cache_eviction_keeps_oldest_half :
    handleCached 3600 2 [("a", ⟨pDummy, 1⟩), ("b", ⟨pDummy, 2⟩)] ⟨0, 0⟩ "c" 3 (some pDummy)
      = (some pDummy, [("a", ⟨pDummy, 1⟩)], ⟨0, 1⟩)
    ∧ lookupCache
        (handleCached 3600 2 [("a", ⟨pDummy, 1⟩), ("b", ⟨pDummy, 2⟩)] ⟨0, 0⟩ "c" 3
          (some pDummy)).2.1 "c" = none := by
  constructor
  · simp [handleCached, handleMiss, lookupCache, dictInsert, evictIfNeeded, sortByTime,
      insertByTime]
  · simp [handleCached, handleMiss, lookupCache, dictInsert, evictIfNeeded, sortByTime,
      insertByTime]

/-- Claim C9: a cache lookup is a hit exactly when a stored entry satisfies
`now - insertedAt < TTL`; a hit returns the stored payload itself without
consulting the pipeline (`compute` is arbitrary) and increments only the
hit counter, leaving the cache untouched; any other lookup is a miss that
increments only the miss counter, leaves an expired entry in place when the
pipeline fails, and replaces it through the dict write plus eviction when
the pipeline succeeds. -/
theorem cache_hit_miss_semantics (ttl : ℚ) (maxSize : Nat)
    (cache : List (String × CacheEntry)) (stats : CacheStats) (key : String) (now : ℚ)
    (compute : Option Payload) :
    (∀ e, lookupCache cache key = some e → now - e.time < ttl →
        handleCached ttl maxSize cache stats key now compute
          = (some e.data, cache, ⟨stats.hits + 1, stats.misses⟩))
    ∧ ((lookupCache cache key = none ∨
          ∃ e, lookupCache cache key = some e ∧ ¬ (now - e.time < ttl)) →
        (handleCached ttl maxSize cache stats key now compute).2.2
            = ⟨stats.hits, stats.misses + 1⟩
        ∧ (compute = none →
            (handleCached ttl maxSize cache stats key now compute).2.1 = cache)
        ∧ ∀ p, compute = some p →
            (handleCached ttl maxSize cache stats key now compute).2.1
              = evictIfNeeded (dictInsert cache key ⟨p, now⟩) maxSize) := by
  constructor
  · intro e he hfresh
    simp [handleCached, he, hfresh]
  · intro hmiss
    rcases hmiss with hnone | ⟨e, he, hstale⟩
    · refine ⟨?_, ?_, ?_⟩
      · cases compute <;> simp [handleCached, hnone, handleMiss]
      · intro hc; subst hc; simp [handleCached, hnone, handleMiss]
      · intro p hp; subst hp; simp [handleCached, hnone, handleMiss]
    · refine ⟨?_, ?_, ?_⟩
      · cases compute <;> simp [handleCached, he, hstale, handleMiss]
      · intro hc; subst hc; simp [handleCached, he, hstale, handleMiss]
      · intro p hp; subst hp; simp [handleCached, he, hstale, handleMiss]

/-- Witness for C9: a fresh entry (inserted at 5, read at 6, TTL 3600) is a
hit — the stored payload is returned even though the pipeline would fail
(`compute = none`), the hit counter moves 3 → 4, the miss counter stays 4,
and the cache is unchanged. -/
theorem cache_hit_miss_semantics_witness :
    handleCached 3600 1000 [("k", ⟨pDummy, 5⟩)] ⟨3, 4⟩ "k" 6 none
      = (some pDummy, [("k", ⟨pDummy, 5⟩)], ⟨4, 4⟩) :=
  (cache_hit_miss_semantics 3600 1000 [("k", ⟨pDummy, 5⟩)] ⟨3, 4⟩ "k" 6 none).1
    ⟨pDummy, 5⟩ (by simp [lookupCache]) (by norm_num)

/-- Claim C6: every display score of a non-empty batch lies in [1, 5], and
a batch of equal raw scores (the `[2, 2, 2]` scenario) normalizes to
exactly 1 everywhere — the `1e-9` guard makes the division total. -/
theorem display_score_bounds :
    (∀ (scores : List ℚ), scores ≠ [] →
        ∀ x ∈ normalizeScores scores, 1 ≤ x ∧ x ≤ 5)
    ∧ normalizeScores [2, 2, 2] = [1, 1, 1] := by
  constructor
  · intro scores hne x hx
    have hlen : scores.length > 0 := List.length_pos.mpr hne
    rw [normalizeScores, if_pos hlen] at hx
    rcases List.mem_map.mp hx with ⟨s, hs, rfl⟩
    have hd : 0 < scoreRange scores + epsQ :=
      add_pos_of_nonneg_of_pos (scoreRange_nonneg scores hne) epsQ_pos
    have hnum : 0 ≤ s - minScore scores := sub_nonneg.mpr (minScore_le_mem scores s hs)
    constructor
    · have : 0 ≤ 4 * (s - minScore scores) / (scoreRange scores + epsQ) :=
        div_nonneg (by linarith) (le_of_lt hd)
      linarith
    · have hsr : s - minScore scores ≤ scoreRange scores + epsQ := by
        have := mem_le_maxScore scores s hs
        have heps := epsQ_pos
        simp only [scoreRange]
        linarith
      have : 4 * (s - minScore scores) / (scoreRange scores + epsQ) ≤ 4 := by
        rw [div_le_iff₀ hd]
        linarith
      linarith
  · simp [normalizeScores, minScore, maxScore, scoreRange, epsQ]

/-- Witness for C6: the first display score of the `[2, 2, 2]` scenario
batch is within the bounds. -/
theorem display_score_bounds_witness : 1 ≤ (1 : ℚ) ∧ (1 : ℚ) ≤ 5 :=
  display_score_bounds.1 [2, 2, 2] (by simp) 1
    (by rw [display_score_bounds.2]; simp)

/-- Counterexample to claim C4: the claim says the `.0` retry happens only
when the directly coerced key is absent from the mapping.  In the code the
swap to the `".0"`-suffixed key is attempted before ever checking the
direct key: with a mapping holding both `"7"` (index 0) and `"7.0"`
(index 1), the input `"7"` resolves to index 1 — the suffixed key wins even
though the direct key is present. -/
theorem dot_zero_retry_precedence_cex :
    lookupStr [("7", 0), ("7.0", 1)] "7" = some 0
    ∧ resolveUid [("7", 0), ("7.0", 1)] "7" = some 1 := by
  constructor
  · decide
  · decide

/-- Claim C4 (amended): the `.0` retry is attempted whenever the coerced
key does not already end in `".0"`, regardless of whether the direct key is
present; when the suffixed form is a key of the mapping it takes precedence
over the direct key; otherwise the direct key is looked up, and the
identifier is unknown only when that lookup also fails. -/
theorem dot_zero_retry_amended (userMap : List (String × Nat)) (uid : String) :
    (endsDotZero uid = true → resolveUid userMap uid = lookupStr userMap uid)
    ∧ (endsDotZero uid = false → (lookupStr userMap (uid ++ ".0")).isSome = true →
        resolveUid userMap uid = lookupStr userMap (uid ++ ".0"))
    ∧ (endsDotZero uid = false → lookupStr userMap (uid ++ ".0") = none →
        resolveUid userMap uid = lookupStr userMap uid) := by
  refine ⟨?_, ?_, ?_⟩
  · intro h
    simp [resolveUid, resolveUidKey, h]
  · intro h hsome
    simp [resolveUid, resolveUidKey, h, hsome]
  · intro h hnone
    simp [resolveUid, resolveUidKey, h, hnone]

/-- Witness for C4 (amended): with keys `"8"` (index 3) and `"8.0"`
(index 9), the input `"8"` resolves through the suffixed key to index 9. -/
theorem dot_zero_retry_amended_witness :
    resolveUid [("8", 3), ("8.0", 9)] "8" = some 9 := by
  have h := (dot_zero_retry_amended [("8", 3), ("8.0", 9)] "8").2.1
    (by decide) (by decide)
  rw [h]
  decide

/-- Counterexample to claim C2: the ranking stage consumes the permutation
produced by `np.argsort` with its default (unstable) sort kind, so any
contract-compliant permutation can occur.  For the equal scores `[1, 1]`
the permutation `[1, 0]` is compliant, yet it puts the candidate at input
position 1 (id 6) ahead of the one at position 0 (id 5) — violating the
claimed stable tie-breaking, which would demand `[(5, 1), (6, 1)]`. -/
theorem rank_stability_cex :
    IsDescSortPerm [1, 1] [1, 0]
    ∧ rankSelect [1, 1] [5, 6] 2 [1, 0] = [(6, 1), (5, 1)] := by
  refine ⟨⟨by decide, by decide⟩, by decide⟩

/-- Claim C2 (amended): for every contract-compliant sort permutation the
ranker output has length `min(n, len(scoredCandidates))`, is ordered by
non-increasing raw score, and is exactly the image of a duplicate-free
list of in-range input positions — each output pair is the candidate and
raw score at one of those positions, no position repeated; the order among
candidates with equal raw score is whatever the unstable default sort of
`np.argsort` emits, not necessarily the input order. -/
theorem rank_output_characterization (scores : List ℚ) (cands : List Nat) (n : Nat)
    (perm : List Nat) (hperm : IsDescSortPerm scores perm) :
    (rankSelect scores cands n perm).length = min n scores.length
    ∧ ((rankSelect scores cands n perm).map Prod.snd).Pairwise (fun a b => b ≤ a)
    ∧ ∃ pos : List Nat, pos.Nodup ∧ (∀ i ∈ pos, i < scores.length)
        ∧ rankSelect scores cands n perm
            = pos.map (fun i => (cands.getD i 0, scores.getD i 0)) := by
  have hlen : perm.length = scores.length := by simpa using hperm.1.length_eq
  refine ⟨?_, ?_, ?_⟩
  · simp only [rankSelect, List.length_map, List.length_take, hlen]
    omega
  · rw [rankSelect, List.map_map]
    refine List.pairwise_map.mpr ?_
    exact (hperm.2).sublist (List.take_sublist _ _)
  · refine ⟨perm.take (min n scores.length), ?_, ?_, rfl⟩
    · have hnd : perm.Nodup := hperm.1.nodup_iff.mpr (List.nodup_range scores.length)
      exact hnd.sublist (List.take_sublist _ _)
    · intro i hi
      have hmem : i ∈ perm := List.mem_of_mem_take hi
      have : i ∈ List.range scores.length := hperm.1.mem_iff.mp hmem
      exact List.mem_range.mp this

/-- Witness for C2 (amended): for scores `[3, 1]`, candidates `[7, 8]`,
`n = 1` and the compliant permutation `[0, 1]`, the output length is
`min 1 2`. -/
theorem rank_output_characterization_witness :
    (rankSelect [3, 1] [7, 8] 1 [0, 1]).length = min 1 ([3, 1] : List ℚ).length :=
  (rank_output_characterization [3, 1] [7, 8] 1 [0, 1] ⟨by decide, by decide⟩).1

/-- The model of the C5 scenario: item mapping `{"101": 0, "102": 1}`,
restricted set `[0, 1]`, and a review log making `["102"]` the rated items
of user `"u1"`. -/
def mC5 : Model :=
  { userMap := [("u1", 5)]
    itemMap := [("101", 0), ("102", 1)]
    mineIndices := some [0, 1]
    reviews := some [("u1", "102")]
    predict := fun _ _ => []
    coursesDf := none }

/-- Claim C5: under both policies the candidate selector removes every item
whose external id is rated, unless that removal would empty the set, in
which case the unfiltered base set is used; and in the scenario with
mapping `{"101": 0, "102": 1}`, rated `["102"]` and restricted set
`{0, 1}` the candidate set is `{0}`. -/
theorem candidate_exclusion_with_fallback :
    (∀ (m : Model) (rng : Nat) (uid : String) (mi : List Nat),
        m.mineIndices = some mi →
        candidateIndices m rng uid true
            = (if (mi.filter (fun idx =>
                    !((ratedCourses m (resolveUidKey m.userMap uid)).contains
                        (idxToItem m.itemMap idx)))).isEmpty
               then mi
               else mi.filter (fun idx =>
                    !((ratedCourses m (resolveUidKey m.userMap uid)).contains
                        (idxToItem m.itemMap idx))))
        ∧ ((mi.filter (fun idx =>
                !((ratedCourses m (resolveUidKey m.userMap uid)).contains
                    (idxToItem m.itemMap idx)))).isEmpty = false →
            ∀ idx ∈ candidateIndices m rng uid true,
              (ratedCourses m (resolveUidKey m.userMap uid)).contains
                  (idxToItem m.itemMap idx) = false))
    ∧ (∀ (m : Model) (rng : Nat) (uid : String),
        (((m.itemMap.map (fun p => p.1)).filter (fun i =>
              !((ratedCourses m (resolveUidKey m.userMap uid)).contains i))).isEmpty
            = false →
          ∀ c ∈ fullCandidateIds m rng uid,
            (ratedCourses m (resolveUidKey m.userMap uid)).contains c = false)
        ∧ (((m.itemMap.map (fun p => p.1)).filter (fun i =>
              !((ratedCourses m (resolveUidKey m.userMap uid)).contains i))).isEmpty
            = true →
          fullCandidateIds m rng uid
            = sampleCandidates rng uid (m.itemMap.map (fun p => p.1))))
    ∧ candidateIndices mC5 0 "u1" true = [0] := by
  refine ⟨?_, ?_, by decide⟩
  · intro m rng uid mi hmi
    constructor
    · simp [candidateIndices, hmi]
    · intro hne idx hidx
      simp only [candidateIndices, hmi, hne, Bool.false_eq_true, if_false] at hidx
      have := List.mem_filter.mp hidx
      simpa using this.2
  · intro m rng uid
    constructor
    · intro hne c hc
      rw [fullCandidateIds] at hc
      simp only [hne, Bool.false_eq_true, if_false] at hc
      have := sampleCandidates_subset rng uid _ c hc
      have := List.mem_filter.mp this
      simpa using this.2
    · intro hemp
      rw [fullCandidateIds]
      simp only [hemp, if_true]

/-- Witness for C5: the scenario instance, derived from the general
theorem — user `"u1"` has rated `"102"`, so only index 0 survives. -/
theorem candidate_exclusion_with_fallback_witness :
    candidateIndices mC5 0 "u1" true = [0] :=
  candidate_exclusion_with_fallback.2.2

/-- A pool of 1001 distinct external ids, used to exercise the sampling
ceiling. -/
def bigPool : List String := (List.range 1001).map (fun i => toString i)

/-- Claim C7: the subsampling step ignores the ambient RNG state (the code
reseeds numpy from the external user id before drawing), so two calls with
the same user id and pool agree; when the pool exceeds 1000 the sample has
exactly 1000 elements, all drawn from the pool; and candidate selection as
a whole is therefore independent of the incoming RNG state. -/
theorem full_catalog_sampling_deterministic :
    (∀ (r1 r2 : Nat) (uid : String) (pool : List String),
        sampleCandidates r1 uid pool = sampleCandidates r2 uid pool)
    ∧ (∀ (rng : Nat) (uid : String) (pool : List String), pool.length > 1000 →
        (sampleCandidates rng uid pool).length = 1000
        ∧ ∀ c ∈ sampleCandidates rng uid pool, c ∈ pool)
    ∧ (∀ (m : Model) (r1 r2 : Nat) (uid : String) (mo : Bool),
        candidateIndices m r1 uid mo = candidateIndices m r2 uid mo) := by
  refine ⟨fun _ _ _ _ => rfl, ?_, fun _ _ _ _ _ => rfl⟩
  intro rng uid pool h
  refine ⟨?_, fun c hc => sampleCandidates_subset rng uid pool c hc⟩
  rw [sampleCandidates, if_pos h]
  exact drawK_length 1000 (seedOf uid) pool (by omega)

/-- Witness for C7: a pool of 1001 ids is subsampled to exactly 1000. -/
theorem full_catalog_sampling_deterministic_witness :
    (sampleCandidates 0 "alice" bigPool).length = 1000 :=
  (full_catalog_sampling_deterministic.2.1 0 "alice" bigPool
    (by simp [bigPool])).1

/-- A degenerate model in which user `"1"` resolves but the candidate list
is empty (empty restricted list, empty catalog). -/
def mC3 : Model :=
  { userMap := [("1", 0)]
    itemMap := []
    mineIndices := some []
    reviews := none
    predict := fun _ _ => []
    coursesDf := none }

/-- The identity sort permutation, a concrete stand-in for `np.argsort`
wherever evaluation at a specific model is needed. -/
def idArgsort : List ℚ → List Nat := fun s => List.range s.length

/-- Counterexample to claim C3: the claim says an empty candidate set
short-circuits before `predict`.  The code has no such guard — line 244
calls `model.predict` unconditionally on every resolved-user path.  In a
model where user `"1"` resolves and the candidate list is empty, the
predict-call count of the run is 1, not 0 (the result is still empty). -/
theorem empty_candidates_predict_called_cex :
    candidateIndices mC3 0 "1" true = []
    ∧ (recommend mC3 idArgsort 0 "1" 10 true).2 = 1
    ∧ (recommend mC3 idArgsort 0 "1" 10 true).1.recommendations = [] := by
  refine ⟨by decide, by decide, by decide⟩

/-- Claim C3 (amended): on every resolved-user run with an empty candidate
set, `predict` is still invoked exactly once (with the empty candidate
list); the scorer then yields no scored candidates and the payload has an
empty recommendation list, count 0 and no error. -/
theorem empty_candidates_amended (m : Model) (argsort : List ℚ → List Nat) (rng : Nat)
    (uid : String) (n : Nat) (mo : Bool) (uidx : Nat)
    (hres : resolveUid m.userMap uid = some uidx)
    (hcand : candidateIndices m rng uid mo = [])
    (hpred : m.predict uidx [] = []) :
    (recommend m argsort rng uid n mo).2 = 1
    ∧ (recommend m argsort rng uid n mo).1.recommendations = []
    ∧ (recommend m argsort rng uid n mo).1.count = 0
    ∧ (recommend m argsort rng uid n mo).1.error = none := by
  have hres2 : lookupStr m.userMap (resolveUidKey m.userMap uid) = some uidx := hres
  simp [recommend, hres2, hcand, hpred, normalizeScores, zip3]

/-- Witness for C3 (amended): the degenerate model above, instantiated. -/
theorem empty_candidates_amended_witness :
    (recommend mC3 idArgsort 3 "1" 7 true).2 = 1
    ∧ (recommend mC3 idArgsort 3 "1" 7 true).1.count = 0 :=
  have h := empty_candidates_amended mC3 idArgsort 3 "1" 7 true 0
    (by decide) (by decide) rfl
  ⟨h.1, h.2.2.1⟩

/-- Claim C8: a user id that survives neither normalization attempt yields
a structured payload — count 0, a non-empty error message, no
recommendations — rather than an exception (`recommend` is total here and
returns before the predict call, hence the call count 0). -/
theorem unknown_user_payload (m : Model) (argsort : List ℚ → List Nat) (rng : Nat)
    (uid : String) (n : Nat) (mo : Bool)
    (hres : resolveUid m.userMap uid = none) :
    recommend m argsort rng uid n mo
      = ({ user_id := uid, count := 0, mine_only := mo,
           error := some (unknownUserMsg uid), recommendations := [] }, 0)
    ∧ (unknownUserMsg uid).length ≠ 0 := by
  constructor
  · have h : lookupStr m.userMap (resolveUidKey m.userMap uid) = none := hres
    simp [recommend, h]
  · have h1 : (unknownUserMsg uid).length
        = ("User ".length + uid.length) + " không có trong model".length := by
      rw [unknownUserMsg, String.length_append, String.length_append]
    have h2 : "User ".length = 5 := by decide
    omega

/-- Witness for C8: the scenario of the spec — unknown user `"9999"` against a
model that only knows user `"1"`. -/
theorem unknown_user_payload_witness :
    recommend mC3 idArgsort 0 "9999" 10 true
      = ({ user_id := "9999", count := 0, mine_only := true,
           error := some (unknownUserMsg "9999"), recommendations := [] }, 0) :=
  (unknown_user_payload mC3 idArgsort 0 "9999" 10 true (by decide)).1

/-- A one-user one-item model whose run succeeds, for the C10 witness. -/
def mC10 : Model :=
  { userMap := [("1", 0)]
    itemMap := [("101", 0)]
    mineIndices := some [0]
    reviews := none
    predict := fun _ l => l.map (fun _ => 3)
    coursesDf := none }

/-- Claim C10: every payload of `recommend` has `count` equal to the length
of its recommendation list and echoes the requested user id and
`mine_only` flag; on a successful (error-free) run the list length is at
most `min n` (number of candidates scored). -/
theorem payload_count_consistency (m : Model) (argsort : List ℚ → List Nat) (rng : Nat)
    (uid : String) (n : Nat) (mo : Bool) :
    (recommend m argsort rng uid n mo).1.count
        = (recommend m argsort rng uid n mo).1.recommendations.length
    ∧ (recommend m argsort rng uid n mo).1.user_id = uid
    ∧ (recommend m argsort rng uid n mo).1.mine_only = mo
    ∧ ((recommend m argsort rng uid n mo).1.error = none →
        (recommend m argsort rng uid n mo).1.recommendations.length
          ≤ min n (m.predict ((resolveUid m.userMap uid).getD 0)
                    (candidateIndices m rng uid mo)).length) := by
  cases hres : lookupStr m.userMap (resolveUidKey m.userMap uid) with
  | none => simp [recommend, hres]
  | some uidx =>
    have hres2 : resolveUid m.userMap uid = some uidx := hres
    refine ⟨by simp [recommend, hres], by simp [recommend, hres],
      by simp [recommend, hres], ?_⟩
    intro _
    simp only [recommend, hres, hres2, Option.getD_some, zip3, List.length_map,
      List.length_zip, List.length_take]
    omega

/-- Witness for C10: the successful run of the one-item model returns a
consistent count and at most `min 10 1` recommendations. -/
theorem payload_count_consistency_witness :
    (recommend mC10 idArgsort 0 "1" 10 true).1.count
        = (recommend mC10 idArgsort 0 "1" 10 true).1.recommendations.length
    ∧ (recommend mC10 idArgsort 0 "1" 10 true).1.recommendations.length
        ≤ min 10 (mC10.predict ((resolveUid mC10.userMap "1").getD 0)
                   (candidateIndices mC10 0 "1" true)).length :=
  have h := payload_count_consistency mC10 idArgsort 0 "1" 10 true
  ⟨h.1, h.2.2.2 rfl⟩

end CourseRec
